import Mathlib

/-!
Shallow embedding of the schedule-generation and holiday-channel filtering
engine of the Popcorn repository (src/scheduler.py, with record shapes from
src/models.py and the enrichment payload shape from src/tmdb_api.py).

Conventions of the embedding:
* Python ints are `Int`/`Nat`; Python floats that only ever face comparisons
  (TMDB vote/popularity) are `Rat`; nullable columns are `Option`.
* Python truthiness of an optional string is `≠ none ∧ ≠ some ""`; of an
  optional number it also treats `0` as falsy; these tests are spelled out
  at each use site exactly where the source relies on truthiness.
* The `random.shuffle` call is modelled by an explicit `shuffle` function
  parameter; theorems that depend on the shuffled list being a permutation
  of its input carry that as a hypothesis.
* The `while current_time < 1440` loop of `generate_channel_schedule` is
  embedded with a fuel parameter; fuel `1441` is enough for every run in
  which the shuffled list is a permutation of the positive-duration entries
  (each iteration then advances the cursor by at least one minute).
* Database rows live in plain lists; the SQLAlchemy delete/insert calls
  become list operations on those lists.
-/

namespace Popcorn

/-- `Movie` row (src/models.py): the fields the scheduler reads. -/
structure Movie where
  id : Nat
  title : String
  genre : String
  duration : Int
  year : Option Int
  rating : Option String
  summary : Option String
  deriving Repr, DecidableEq

/-- `Schedule` row: one slot of a channel's day.  The stored `start_time` /
`end_time` strings of the source are recovered from the minute counts by
`Slot.start_time` / `Slot.end_time` below, exactly as the source formats
them before insertion. -/
structure Slot where
  channel : String
  movie_id : Nat
  startMin : Nat
  endMin : Nat
  day : Nat
  deriving Repr, DecidableEq

/-- `HolidayChannel` row (src/models.py). -/
structure HolidayChannel where
  name : String
  start_month : Nat
  end_month : Nat
  genre_filter : Option String
  keywords : Option String
  rating_filter : Option String
  filter_mode : Option String
  tmdb_collection_ids : Option String
  tmdb_keywords : Option String
  min_rating : Option Rat
  min_popularity : Option Rat
  deriving Repr, DecidableEq

/-- `MovieOverride` row (src/models.py). -/
structure MovieOverride where
  channel_name : String
  movie_id : Nat
  override_type : String
  deriving Repr, DecidableEq

/-- The two `Settings` columns the orchestrator reads and writes
(`shuffle_frequency`, `last_shuffle_date`); the date is a day number so
that `date.today() - last` becomes integer subtraction. -/
structure Settings where
  shuffle_frequency : Option String
  last_shuffle_date : Option Int
  deriving Repr, DecidableEq

/-- Python's `f"{n:02d}"` for a nonnegative value. -/
def pad2 (n : Nat) : String :=
  if n < 10 then "0" ++ toString n else toString n

/-- `f"{m // 60:02d}:{m % 60:02d}"` — the stored slot time strings. -/
def fmtTime (m : Nat) : String :=
  pad2 (m / 60) ++ ":" ++ pad2 (m % 60)

/-- The `start_time` string stored on the row. -/
def Slot.start_time (s : Slot) : String := fmtTime s.startMin

/-- The `end_time` string stored on the row. -/
def Slot.end_time (s : Slot) : String := fmtTime s.endMin

/-- The slots stored for one (channel, day) pair, in insertion order:
`query(Schedule).filter_by(channel=…, day=…)`. -/
def slotsFor (db : List Slot) (channel : String) (day : Nat) : List Slot :=
  db.filter (fun s => s.channel == channel && s.day == day)

/-- The body of `while current_time < 1440` in
`ScheduleGenerator.generate_channel_schedule` (src/scheduler.py:326-353):
take `valid_movies[movie_index % len(valid_movies)]`, skip it when its
duration is non-positive, otherwise emit a slot `[t, min (t+duration) 1440)`
and advance the cursor.  `fuel` bounds the iteration count. -/
def packLoop (channel : String) (day : Nat) (movies : List Movie)
    (t idx fuel : Nat) : List Slot :=
  match fuel with
  | 0 => []
  | fuel' + 1 =>
    if t < 1440 then
      match movies.get? (idx % movies.length) with
      | none => []
      | some movie =>
        if movie.duration ≤ 0 then
          packLoop channel day movies t (idx + 1) fuel'
        else
          let endM := min (t + movie.duration.toNat) 1440
          { channel := channel, movie_id := movie.id,
            startMin := t, endMin := endM, day := day } ::
            packLoop channel day movies endM (idx + 1) fuel'
    else []

/-- The slots freshly emitted by one `generate_channel_schedule` call:
filter to positive durations, shuffle, then run the packing loop from
minute 0. -/
def pack_day (shuffle : List Movie → List Movie) (channel : String)
    (movies : List Movie) (day : Nat) : List Slot :=
  let valid := movies.filter (fun m => decide (0 < m.duration))
  packLoop channel day (shuffle valid) 0 0 1441

/-- `ScheduleGenerator.generate_channel_schedule` as a transition on the
stored slot table (src/scheduler.py:309-356): return unchanged when the
entry list is empty or no entry has positive duration (the early returns
at lines 310-317 fire *before* the delete), otherwise delete the rows of
this (channel, day) pair and append the freshly packed slots. -/
def generate_channel_schedule (shuffle : List Movie → List Movie)
    (db : List Slot) (channel : String) (movies : List Movie) (day : Nat) :
    List Slot :=
  if movies.isEmpty then db
  else
    let valid := movies.filter (fun m => decide (0 < m.duration))
    if valid.isEmpty then db
    else
      db.filter (fun s => !(s.channel == channel && s.day == day)) ++
        packLoop channel day (shuffle valid) 0 0 1441

/-- Full-day coverage shape of an emitted slot list (claim C1): starts at
minute 0, each slot begins where the previous one ends, ends exactly at
minute 1440, every slot is a nonempty interval inside the day referencing
an input entry, and every slot except possibly the last has exactly its
entry's duration. -/
def PackerCoverage (movies : List Movie) (slots : List Slot) : Prop :=
  slots.head?.map Slot.startMin = some 0 ∧
  List.Chain' (fun a b => b.startMin = a.endMin) slots ∧
  slots.getLast?.map Slot.endMin = some 1440 ∧
  (∀ s ∈ slots, s.startMin < s.endMin ∧ s.endMin ≤ 1440 ∧
    ∃ m ∈ movies, s.movie_id = m.id) ∧
  (∀ i, (h : i + 1 < slots.length) → ∃ m ∈ movies,
    (slots.get ⟨i, by omega⟩).movie_id = m.id ∧
    (slots.get ⟨i, by omega⟩).endMin
      = (slots.get ⟨i, by omega⟩).startMin + m.duration.toNat)

lemma packLoop_stop (channel : String) (day : Nat) (movies : List Movie)
    (fuel t idx : Nat) (h : 1440 ≤ t) :
    packLoop channel day movies t idx fuel = [] := by
  cases fuel with
  | zero => rfl
  | succ fuel' => simp [packLoop, Nat.not_lt.2 h]

lemma packLoop_spec (channel : String) (day : Nat) (movies : List Movie)
    (hpos : ∀ m ∈ movies, 0 < m.duration) (hne : movies ≠ []) :
    ∀ fuel t idx, t < 1440 → 1440 - t ≤ fuel →
      (packLoop channel day movies t idx fuel).head?.map Slot.startMin
          = some t ∧
      List.Chain' (fun a b => b.startMin = a.endMin)
          (packLoop channel day movies t idx fuel) ∧
      (packLoop channel day movies t idx fuel).getLast?.map Slot.endMin
          = some 1440 ∧
      ∀ s ∈ packLoop channel day movies t idx fuel,
        s.channel = channel ∧ s.day = day ∧ s.startMin < s.endMin ∧
        s.endMin ≤ 1440 ∧
        ∃ m ∈ movies, s.movie_id = m.id ∧
          s.endMin = min (s.startMin + m.duration.toNat) 1440 := by
  intro fuel
  induction fuel with
  | zero => intro t idx ht hf; omega
  | succ fuel ih =>
    intro t idx ht hf
    have hlen : 0 < movies.length := List.length_pos.2 hne
    have hidx : idx % movies.length < movies.length := Nat.mod_lt _ hlen
    obtain ⟨movie, hget⟩ : ∃ m, movies.get? (idx % movies.length) = some m :=
      ⟨_, List.get?_eq_get hidx⟩
    have hmem : movie ∈ movies := List.get?_mem hget
    have hd : 0 < movie.duration := hpos _ hmem
    have hdn : 0 < movie.duration.toNat := by omega
    have hstep : packLoop channel day movies t idx (fuel + 1) =
        { channel := channel, movie_id := movie.id, startMin := t,
          endMin := min (t + movie.duration.toNat) 1440, day := day } ::
          packLoop channel day movies
            (min (t + movie.duration.toNat) 1440) (idx + 1) fuel := by
      simp only [packLoop, if_pos ht, hget]
      rw [if_neg (by omega : ¬ movie.duration ≤ 0)]
    by_cases hend : t + movie.duration.toNat < 1440
    · -- untruncated slot, the loop continues
      have hE : min (t + movie.duration.toNat) 1440 = t + movie.duration.toNat := by
        omega
      have hf' : 1440 - (t + movie.duration.toNat) ≤ fuel := by omega
      obtain ⟨ih1, ih2, ih3, ih4⟩ := ih (t + movie.duration.toNat) (idx + 1) hend hf'
      rw [hE] at hstep
      have hrest_ne : packLoop channel day movies
          (t + movie.duration.toNat) (idx + 1) fuel ≠ [] := by
        intro hnil
        rw [hnil] at ih1
        simp at ih1
      refine ⟨?_, ?_, ?_, ?_⟩
      · rw [hstep]; rfl
      · rw [hstep]
        rw [List.chain'_cons']
        refine ⟨?_, ih2⟩
        intro y hy
        have : (packLoop channel day movies (t + movie.duration.toNat)
            (idx + 1) fuel).head? = some y := hy
        rw [this] at ih1
        simpa using ih1
      · rw [hstep]
        rcases hrest : packLoop channel day movies (t + movie.duration.toNat)
            (idx + 1) fuel with _ | ⟨r, rs⟩
        · exact absurd hrest hrest_ne
        · rw [List.getLast?_cons_cons]
          rw [hrest] at ih3
          exact ih3
      · rw [hstep]
        intro s hs
        rcases List.mem_cons.1 hs with hs | hs
        · subst hs
          refine ⟨rfl, rfl, by simp; omega, by simp; omega, movie, hmem, rfl, by simp [hE]⟩
        · exact ih4 s hs
    · -- final, possibly truncated slot: the cursor reaches 1440
      have hE : min (t + movie.duration.toNat) 1440 = 1440 := by omega
      rw [hE] at hstep
      rw [packLoop_stop channel day movies fuel 1440 (idx + 1) le_rfl] at hstep
      refine ⟨?_, ?_, ?_, ?_⟩
      · rw [hstep]; rfl
      · rw [hstep]; exact List.chain'_singleton _
      · rw [hstep]; rfl
      · rw [hstep]
        intro s hs
        rcases List.mem_cons.1 hs with hs | hs
        · subst hs
          exact ⟨rfl, rfl, by simpa using ht, by simp, movie, hmem, rfl, by simp [hE]⟩
        · simp at hs

lemma pack_day_eq (shuffle : List Movie → List Movie) (channel : String)
    (movies : List Movie) (day : Nat) :
    pack_day shuffle channel movies day =
      packLoop channel day
        (shuffle (movies.filter (fun m => decide (0 < m.duration)))) 0 0 1441 :=
  rfl

/-- A sample catalog entry used by concrete witnesses. -/
def mvComedy : Movie :=
  { id := 1, title := "A", genre := "Comedy", duration := 100,
    year := none, rating := none, summary := none }

/-- C1: for every entry list with at least one positive-duration entry and
any (channel, day), `generate_channel_schedule`'s packing loop emits slots
that are contiguous, non-overlapping and exactly cover minutes [0, 1440):
the first slot starts at 0, each start equals the previous end, the last
end is 1440, every slot references an input entry, and only the final slot
may be truncated below its entry's duration (`PackerCoverage`). -/
theorem claim_C1_packer_coverage (shuffle : List Movie → List Movie)
    (channel : String) (movies : List Movie) (day : Nat)
    (hshuf : ∀ l, (shuffle l).Perm l)
    (hex : ∃ m ∈ movies, 0 < m.duration) :
    PackerCoverage movies (pack_day shuffle channel movies day) := by
  have hperm : (shuffle (movies.filter (fun m => decide (0 < m.duration)))).Perm
      (movies.filter (fun m => decide (0 < m.duration))) := hshuf _
  have hvalid_ne : movies.filter (fun m => decide (0 < m.duration)) ≠ [] := by
    obtain ⟨m, hm, hdm⟩ := hex
    intro h
    have hmv : m ∈ movies.filter (fun m => decide (0 < m.duration)) :=
      List.mem_filter.2 ⟨hm, by simpa using hdm⟩
    rw [h] at hmv
    simp at hmv
  have hne : shuffle (movies.filter (fun m => decide (0 < m.duration))) ≠ [] := by
    intro h
    have hl := hperm.length_eq
    rw [h] at hl
    exact hvalid_ne (List.length_eq_zero.1 hl.symm)
  have hpos : ∀ m ∈ shuffle (movies.filter (fun m => decide (0 < m.duration))),
      0 < m.duration := by
    intro m hm
    have hmv := List.mem_filter.1 (hperm.mem_iff.1 hm)
    simpa using hmv.2
  have hsub : ∀ m ∈ shuffle (movies.filter (fun m => decide (0 < m.duration))),
      m ∈ movies := fun m hm => (List.mem_filter.1 (hperm.mem_iff.1 hm)).1
  obtain ⟨h1, h2, h3, h4⟩ :=
    packLoop_spec channel day _ hpos hne 1441 0 0 (by omega) (by omega)
  rw [PackerCoverage, pack_day_eq]
  refine ⟨h1, h2, h3, ?_, ?_⟩
  · intro s hs
    obtain ⟨_, _, hlt, hle, m, hm, hid, _⟩ := h4 s hs
    exact ⟨hlt, hle, m, hsub m hm, hid⟩
  · intro i h
    have hchain := (List.chain'_iff_get.1 h2) i (by omega)
    have hmem1 := (packLoop channel day
        (shuffle (movies.filter (fun m => decide (0 < m.duration)))) 0 0
        1441).get_mem i (by omega)
    have hmem2 := (packLoop channel day
        (shuffle (movies.filter (fun m => decide (0 < m.duration)))) 0 0
        1441).get_mem (i + 1) (by omega)
    obtain ⟨_, _, hlt2, hle2, _⟩ := h4 _ hmem2
    obtain ⟨_, _, hlt1, hle1, m, hm, hid, hmin⟩ := h4 _ hmem1
    refine ⟨m, hsub m hm, hid, ?_⟩
    omega

/-- Witness for C1 at a one-entry catalog with the identity shuffle. -/
theorem claim_C1_witness :
    PackerCoverage [mvComedy] (pack_day id "Comedy" [mvComedy] 0) :=
  claim_C1_packer_coverage id "Comedy" [mvComedy] 0
    (fun l => List.Perm.refl l) ⟨mvComedy, List.mem_singleton.2 rfl, by decide⟩

lemma packLoop_channel_day (channel : String) (day : Nat)
    (movies : List Movie) :
    ∀ fuel t idx, ∀ s ∈ packLoop channel day movies t idx fuel,
      s.channel = channel ∧ s.day = day := by
  intro fuel
  induction fuel with
  | zero => intro t idx s hs; simp [packLoop] at hs
  | succ fuel ih =>
    intro t idx s hs
    by_cases ht : t < 1440
    · cases hget : movies.get? (idx % movies.length) with
      | none =>
        simp only [packLoop, if_pos ht, hget] at hs
        simp at hs
      | some movie =>
        simp only [packLoop, if_pos ht, hget] at hs
        by_cases hd : movie.duration ≤ 0
        · rw [if_pos hd] at hs
          exact ih _ _ s hs
        · rw [if_neg hd] at hs
          rcases List.mem_cons.1 hs with h | h
          · subst h; exact ⟨rfl, rfl⟩
          · exact ih _ _ s h
    · simp only [packLoop, if_neg ht] at hs
      simp at hs

lemma packLoop_nil (channel : String) (day : Nat) :
    ∀ fuel t idx, packLoop channel day [] t idx fuel = [] := by
  intro fuel t idx
  cases fuel with
  | zero => rfl
  | succ fuel => simp [packLoop]

/-- A pre-existing stored slot used by concrete counterexamples. -/
def slotX : Slot :=
  { channel := "X", movie_id := 5, startMin := 0, endMin := 1440, day := 0 }

/-- C2 as stated is false: with zero eligible entries,
`generate_channel_schedule` returns before the `delete` call, so the slots
previously stored for the (channel, day) pair survive even though zero
slots are emitted — the stored set is not "exactly the newly emitted
ones". -/
theorem claim_C2_counterexample :
    slotsFor (generate_channel_schedule id [slotX] "X" [] 0) "X" 0 = [slotX] ∧
    pack_day id "X" [] 0 = [] :=
  ⟨rfl, rfl⟩

/-- C2 amended: when at least one entry has positive duration, the call
replaces the stored slots of the (channel, day) pair with exactly the
freshly packed ones and leaves every other pair unchanged; with zero
eligible entries it returns normally, emits zero slots, and leaves the
whole table (including that pair's existing slots) unchanged. -/
theorem claim_C2_replacement (shuffle : List Movie → List Movie)
    (db : List Slot) (channel : String) (movies : List Movie) (day : Nat)
    (hshuf : ∀ l, (shuffle l).Perm l) :
    ((∃ m ∈ movies, 0 < m.duration) →
      slotsFor (generate_channel_schedule shuffle db channel movies day)
          channel day = pack_day shuffle channel movies day ∧
      ∀ ch' d', ¬(ch' = channel ∧ d' = day) →
        slotsFor (generate_channel_schedule shuffle db channel movies day)
            ch' d' = slotsFor db ch' d') ∧
    ((¬ ∃ m ∈ movies, 0 < m.duration) →
      generate_channel_schedule shuffle db channel movies day = db ∧
      pack_day shuffle channel movies day = []) := by
  constructor
  · intro hex
    have hmne : movies ≠ [] := by
      obtain ⟨m, hm, _⟩ := hex
      exact fun h => by rw [h] at hm; simp at hm
    have hvne : movies.filter (fun m => decide (0 < m.duration)) ≠ [] := by
      obtain ⟨m, hm, hdm⟩ := hex
      intro h
      have hmv : m ∈ movies.filter (fun m => decide (0 < m.duration)) :=
        List.mem_filter.2 ⟨hm, by simpa using hdm⟩
      rw [h] at hmv
      simp at hmv
    have hgen : generate_channel_schedule shuffle db channel movies day =
        db.filter (fun s => !(s.channel == channel && s.day == day)) ++
          packLoop channel day
            (shuffle (movies.filter (fun m => decide (0 < m.duration))))
            0 0 1441 := by
      rw [generate_channel_schedule]
      rw [if_neg (by simpa [List.isEmpty_iff] using hmne)]
      rw [if_neg (by simpa [List.isEmpty_iff] using hvne)]
    have hcd := packLoop_channel_day channel day
      (shuffle (movies.filter (fun m => decide (0 < m.duration)))) 1441 0 0
    constructor
    · rw [hgen, slotsFor, List.filter_append, pack_day_eq]
      have h1 : (db.filter
          (fun s => !(s.channel == channel && s.day == day))).filter
            (fun s => s.channel == channel && s.day == day) = [] := by
        rw [List.filter_filter]
        apply List.filter_eq_nil_iff.2
        intro s _ h
        simp at h
        tauto
      have h2 : (packLoop channel day
          (shuffle (movies.filter (fun m => decide (0 < m.duration))))
          0 0 1441).filter (fun s => s.channel == channel && s.day == day) =
          packLoop channel day
            (shuffle (movies.filter (fun m => decide (0 < m.duration))))
            0 0 1441 := by
        apply List.filter_eq_self.2
        intro s hs
        obtain ⟨hc, hd⟩ := hcd s hs
        simp [hc, hd]
      rw [h1, h2, List.nil_append]
    · intro ch' d' hne'
      rw [hgen, slotsFor, slotsFor, List.filter_append]
      have h2 : (packLoop channel day
          (shuffle (movies.filter (fun m => decide (0 < m.duration))))
          0 0 1441).filter (fun s => s.channel == ch' && s.day == d') = [] := by
        apply List.filter_eq_nil_iff.2
        intro s hs
        obtain ⟨hc, hd⟩ := hcd s hs
        simp only [Bool.and_eq_true, beq_iff_eq, not_and]
        intro h1 h2
        exact hne' ⟨by rw [← h1, hc], by rw [← h2, hd]⟩
      have h1 : (db.filter
          (fun s => !(s.channel == channel && s.day == day))).filter
            (fun s => s.channel == ch' && s.day == d') =
          db.filter (fun s => s.channel == ch' && s.day == d') := by
        rw [List.filter_filter]
        apply List.filter_congr
        intro s _
        by_cases hp : (s.channel == ch' && s.day == d') = true
        · simp only [hp, Bool.and_true, Bool.true_and]
          simp only [Bool.and_eq_true, beq_iff_eq] at hp
          have : ¬(s.channel == channel && s.day == day) = true := by
            simp only [Bool.and_eq_true, beq_iff_eq, not_and]
            intro ha hb
            exact hne' ⟨by rw [← hp.1, ha], by rw [← hp.2, hb]⟩
          simp [this]
        · simp only [Bool.not_eq_true] at hp
          simp [hp]
      rw [h1, h2, List.append_nil]
  · intro hnex
    have hvnil : movies.filter (fun m => decide (0 < m.duration)) = [] := by
      apply List.filter_eq_nil_iff.2
      intro m hm
      simp only [decide_eq_true_eq]
      exact fun h => hnex ⟨m, hm, h⟩
    have hsnil : shuffle (movies.filter (fun m => decide (0 < m.duration))) = [] := by
      rw [hvnil]
      exact (hshuf []).eq_nil
    constructor
    · rw [generate_channel_schedule]
      by_cases hm : movies.isEmpty
      · rw [if_pos hm]
      · rw [if_neg hm, if_pos (by simp [hvnil])]
    · rw [pack_day_eq, hsnil, packLoop_nil]

/-- Witness for the amended C2 at a concrete catalog and slot table. -/
theorem claim_C2_witness :
    slotsFor (generate_channel_schedule id [slotX] "Comedy" [mvComedy] 0)
        "Comedy" 0 = pack_day id "Comedy" [mvComedy] 0 ∧
    slotsFor (generate_channel_schedule id [slotX] "Comedy" [mvComedy] 0)
        "X" 0 = slotsFor [slotX] "X" 0 :=
  ⟨((claim_C2_replacement id [slotX] "Comedy" [mvComedy] 0
        (fun l => List.Perm.refl l)).1
      ⟨mvComedy, List.mem_singleton.2 rfl, by decide⟩).1,
   ((claim_C2_replacement id [slotX] "Comedy" [mvComedy] 0
        (fun l => List.Perm.refl l)).1
      ⟨mvComedy, List.mem_singleton.2 rfl, by decide⟩).2 "X" 0 (by simp)⟩

/-! ## Filter engine (`ScheduleGenerator.get_movies_for_holiday_channel`) -/

/-- Enrichment payload assembled by
`TMDBAPI.get_movie_by_plex_metadata` (src/tmdb_api.py): the collection id
when `belongs_to_collection` carries one, the lowercased keyword names,
and the vote/popularity scores. -/
structure TMDBData where
  belongs_to_collection : Option Nat
  tmdb_keywords : List String
  vote_average : Option Rat
  popularity : Option Rat
  deriving Repr, DecidableEq

/-- An enrichment lookup keyed by (title, year); `none` at the outer level
means no TMDB API key is configured, `none` at the inner level means the
lookup found nothing or raised (absorbed by the `try/except`). -/
def TMDBLookup : Type := String → Int → Option TMDBData

/-- Python's `str.lower()` (ASCII case folding, matching the library data
this code handles). -/
def strLower (s : String) : String := ⟨s.toList.map Char.toLower⟩

/-- Python's `str.upper()`. -/
def strUpper (s : String) : String := ⟨s.toList.map Char.toUpper⟩

/-- Python's `str.strip()`. -/
def strTrim (s : String) : String :=
  ⟨((s.toList.dropWhile Char.isWhitespace).reverse.dropWhile
      Char.isWhitespace).reverse⟩

/-- Python's `str.split(',')` on the character list. -/
def splitComma : List Char → List (List Char)
  | [] => [[]]
  | c :: rest =>
    let r := splitComma rest
    if c = ',' then [] :: r
    else
      match r with
      | [] => [[c]]
      | h :: t => (c :: h) :: t

/-- Python's `s.split(',')`. -/
def strSplitComma (s : String) : List String :=
  (splitComma s.toList).map (fun l => ⟨l⟩)

/-- `[x.strip().lower() for x in s.split(',')]` applied to a column whose
Python truthiness was checked first (so `None` and `""` give `[]`). -/
def parseCSVLower (s : Option String) : List String :=
  match s with
  | none => []
  | some str =>
    if str = "" then []
    else (strSplitComma str).map (fun x => strLower (strTrim x))

/-- `[int(x.strip()) for x in s.split(',') if x.strip().isdigit()]`. -/
def parseIds (s : Option String) : List Nat :=
  match s with
  | none => []
  | some str =>
    if str = "" then []
    else ((strSplitComma str).filter
        (fun x => !(strTrim x).toList.isEmpty &&
          (strTrim x).toList.all Char.isDigit)).map
      (fun x => (strTrim x).toList.foldl (fun n c => n * 10 + (c.toNat - 48)) 0)

/-- Substring containment on character lists (`needle in hay`). -/
def containsSubstr (needle hay : List Char) : Bool :=
  (List.range (hay.length + 1)).any (fun i => needle.isPrefixOf (hay.drop i))

/-- ASCII word character, approximating the regex `\w` class used by the
word-boundary search below. -/
def isWordChar (c : Char) : Bool := c.isAlphanum || c = '_'

/-- Is the character at index `i` a word character (out of range counts as
non-word)? -/
def wordAt (text : List Char) (i : Nat) : Bool :=
  match text.get? i with
  | some c => isWordChar c
  | none => false

/-- Does the regex `\b` match between positions `p-1` and `p` of `text`? -/
def boundaryAt (text : List Char) (p : Nat) : Bool :=
  (if p = 0 then false else wordAt text (p - 1)) != wordAt text p

/-- `re.search(r'\b' + re.escape(kw) + r'\b', text)`: some occurrence of
the literal keyword delimited by word boundaries on both sides. -/
def wbSearch (kw text : List Char) : Bool :=
  (List.range (text.length + 1)).any (fun i =>
    kw.isPrefixOf (text.drop i) && boundaryAt text i &&
      boundaryAt text (i + kw.length))

/-- `genre_match` of src/scheduler.py:236-238: some configured genre
substring occurs in the entry's lowercased genre string. -/
def genre_match (channel : HolidayChannel) (movie : Movie) : Bool :=
  (parseCSVLower channel.genre_filter).any
    (fun gf => containsSubstr gf.toList (strLower movie.genre).toList)

/-- `keyword_match` of src/scheduler.py:241-250: some configured keyword
matches as a whole word against the lowercased title or summary. -/
def keyword_match (channel : HolidayChannel) (movie : Movie) : Bool :=
  (parseCSVLower channel.keywords).any (fun kw =>
    wbSearch kw.toList (strLower movie.title).toList ||
      wbSearch kw.toList (strLower (movie.summary.getD "")).toList)

/-- The TMDB block of src/scheduler.py:253-279.  Returns
`(tmdb_match, hard_excluded)`: the collection/keyword OR-in signal, and
whether the `min_rating` / `min_popularity` `continue`s fire. -/
def tmdbEval (channel : HolidayChannel) (lookup : Option TMDBLookup)
    (movie : Movie) : Bool × Bool :=
  match lookup with
  | none => (false, false)
  | some f =>
    match movie.year with
    | none => (false, false)
    | some y =>
      if y = 0 then (false, false)
      else
        match f movie.title y with
        | none => (false, false)
        | some d =>
          let colIds := parseIds channel.tmdb_collection_ids
          let tkws := parseCSVLower channel.tmdb_keywords
          let m1 : Bool := !colIds.isEmpty &&
            (match d.belongs_to_collection with
             | some cid => colIds.contains cid
             | none => false)
          let m2 : Bool := !tkws.isEmpty && !d.tmdb_keywords.isEmpty &&
            tkws.any (fun kw => d.tmdb_keywords.contains kw)
          let ex1 : Bool :=
            match channel.min_rating, d.vote_average with
            | some r, some v => decide (r ≠ 0) && decide (v ≠ 0) && decide (v < r)
            | _, _ => false
          let ex2 : Bool :=
            match channel.min_popularity, d.popularity with
            | some p, some v => decide (p ≠ 0) && decide (v ≠ 0) && decide (v < p)
            | _, _ => false
          (m1 || m2, ex1 || ex2)

/-- The rating allow-list step of src/scheduler.py:295-304: with a truthy
`rating_filter`, the entry passes when its uppercased rating is in the
allow-list or it has no (falsy) rating; otherwise every entry passes. -/
def ratingOk (channel : HolidayChannel) (movie : Movie) : Bool :=
  match channel.rating_filter with
  | none => true
  | some rf =>
    if rf = "" then true
    else
      ((strSplitComma rf).map (fun r => strUpper (strTrim r))).contains
          (strUpper (movie.rating.getD "")) ||
        decide (movie.rating = none ∨ movie.rating = some "")

/-- `filter_mode = channel.filter_mode if channel.filter_mode else 'OR'`
(src/scheduler.py:216). -/
def effFilterMode (fm : Option String) : String :=
  match fm with
  | none => "OR"
  | some s => if s = "" then "OR" else s

/-- The per-entry body of the loop in
`get_movies_for_holiday_channel` (src/scheduler.py:218-304): blacklist,
then whitelist, then the predicate/enrichment combination, then the
rating filter. -/
def movieEligible (channel : HolidayChannel) (blacklist whitelist : List Nat)
    (lookup : Option TMDBLookup) (movie : Movie) : Bool :=
  if blacklist.contains movie.id then false
  else if whitelist.contains movie.id then true
  else
    let t := tmdbEval channel lookup movie
    if t.2 then false
    else
      let matched :=
        if effFilterMode channel.filter_mode = "AND" then
          genre_match channel movie && keyword_match channel movie
        else
          genre_match channel movie || keyword_match channel movie
      let matched := matched || t.1
      if matched then ratingOk channel movie else false

/-- The per-channel override id sets built at src/scheduler.py:188-190. -/
def overrideIds (overrides : List MovieOverride) (channelName kind : String) :
    List Nat :=
  (overrides.filter
      (fun o => o.channel_name == channelName && o.override_type == kind)).map
    (fun o => o.movie_id)

/-- `ScheduleGenerator.get_movies_for_holiday_channel`
(src/scheduler.py:173-307) as a pure filter over the movie table. -/
def get_movies_for_holiday_channel (lookup : Option TMDBLookup)
    (movies : List Movie) (overrides : List MovieOverride)
    (channel : HolidayChannel) : List Movie :=
  movies.filter
    (movieEligible channel (overrideIds overrides channel.name "blacklist")
      (overrideIds overrides channel.name "whitelist") lookup)

/-- C3: a blacklisted entry is never eligible for the channel, regardless
of every other signal (the blacklist check is the first test in the loop
and `continue`s immediately). -/
theorem claim_C3_blacklist (lookup : Option TMDBLookup) (movies : List Movie)
    (overrides : List MovieOverride) (channel : HolidayChannel) (movie : Movie)
    (hbl : movie.id ∈ overrideIds overrides channel.name "blacklist") :
    movieEligible channel (overrideIds overrides channel.name "blacklist")
        (overrideIds overrides channel.name "whitelist") lookup movie = false ∧
    movie ∉ get_movies_for_holiday_channel lookup movies overrides channel := by
  have hfalse : movieEligible channel
      (overrideIds overrides channel.name "blacklist")
      (overrideIds overrides channel.name "whitelist") lookup movie = false := by
    rw [movieEligible, if_pos (by simp [hbl])]
  refine ⟨hfalse, fun hmem => ?_⟩
  have := (List.mem_filter.1 hmem).2
  rw [hfalse] at this
  exact Bool.false_ne_true this

/-- Override rows used by concrete witnesses. -/
def ovBlack : List MovieOverride :=
  [{ channel_name := "Christmas", movie_id := 7, override_type := "blacklist" }]

/-- Override rows used by concrete witnesses. -/
def ovWhite : List MovieOverride :=
  [{ channel_name := "Christmas", movie_id := 7, override_type := "whitelist" }]

/-- A sample themed channel in conjunctive (`'AND'`) mode. -/
def chAND : HolidayChannel :=
  { name := "Christmas", start_month := 11, end_month := 1,
    genre_filter := some "comedy,family", keywords := some "christmas,xmas",
    rating_filter := some "G,PG", filter_mode := some "AND",
    tmdb_collection_ids := none, tmdb_keywords := none,
    min_rating := none, min_popularity := none }

/-- The same sample channel in `'OR'` mode. -/
def chOR : HolidayChannel :=
  { chAND with filter_mode := some "OR" }

/-- A strongly matching sample entry. -/
def mvXmas : Movie :=
  { id := 7, title := "A Christmas Movie", genre := "Comedy", duration := 90,
    year := none, rating := some "PG", summary := some "a christmas tale" }

/-- An entry matching a genre substring but no keyword. -/
def mvGenreOnly : Movie :=
  { id := 7, title := "Jaws", genre := "Comedy", duration := 90,
    year := none, rating := some "PG", summary := none }

/-- An entry matching nothing, with a disallowed rating. -/
def mvR : Movie :=
  { id := 7, title := "Jaws", genre := "Horror", duration := 90,
    year := none, rating := some "R", summary := none }

/-- Witness for C3: a strongly matching but blacklisted entry is dropped. -/
theorem claim_C3_witness :
    movieEligible chAND (overrideIds ovBlack chAND.name "blacklist")
        (overrideIds ovBlack chAND.name "whitelist") none mvXmas = false ∧
    mvXmas ∉ get_movies_for_holiday_channel none [mvXmas] ovBlack chAND :=
  claim_C3_blacklist none [mvXmas] ovBlack chAND mvXmas (by decide)

/-- C4: a whitelisted, non-blacklisted entry is always in the eligible
set, even when it matches no predicate and its rating is outside the
allow-list (the whitelist check short-circuits before the predicates and
the rating filter). -/
theorem claim_C4_whitelist (lookup : Option TMDBLookup) (movies : List Movie)
    (overrides : List MovieOverride) (channel : HolidayChannel) (movie : Movie)
    (hwl : movie.id ∈ overrideIds overrides channel.name "whitelist")
    (hbl : movie.id ∉ overrideIds overrides channel.name "blacklist")
    (hm : movie ∈ movies) :
    movieEligible channel (overrideIds overrides channel.name "blacklist")
        (overrideIds overrides channel.name "whitelist") lookup movie = true ∧
    movie ∈ get_movies_for_holiday_channel lookup movies overrides channel := by
  have htrue : movieEligible channel
      (overrideIds overrides channel.name "blacklist")
      (overrideIds overrides channel.name "whitelist") lookup movie = true := by
    rw [movieEligible, if_neg (by simp [hbl]), if_pos (by simp [hwl])]
  exact ⟨htrue, List.mem_filter.2 ⟨hm, htrue⟩⟩

/-- Witness for C4: a predicate-failing, `R`-rated entry is eligible once
whitelisted. -/
theorem claim_C4_witness :
    movieEligible chAND (overrideIds ovWhite chAND.name "blacklist")
        (overrideIds ovWhite chAND.name "whitelist") none mvR = true ∧
    mvR ∈ get_movies_for_holiday_channel none [mvR] ovWhite chAND :=
  claim_C4_whitelist none [mvR] ovWhite chAND mvR (by decide) (by decide)
    (List.mem_singleton.2 rfl)

lemma effFilterMode_eq_AND (fm : Option String) :
    effFilterMode fm = "AND" ↔ fm = some "AND" := by
  cases fm with
  | none => simp [effFilterMode]
  | some s =>
    by_cases hs : s = ""
    · subst hs; simp [effFilterMode]
    · simp [effFilterMode, hs]

/-- C5: for a no-override, no-enrichment entry with a genre match and no
keyword match, the conjunctive mode (spec name `ALL`, stored as `'AND'`)
excludes it while the disjunctive mode (spec name `ANY`, stored as `'OR'`)
includes it subject only to the rating filter; and a true enrichment match
(with the hard score filters passing) includes an entry regardless of
mode, up to the rating filter. -/
theorem claim_C5_mode_semantics (lookup : Option TMDBLookup)
    (movies : List Movie) (overrides : List MovieOverride)
    (channel : HolidayChannel) (movie : Movie)
    (hbl : movie.id ∉ overrideIds overrides channel.name "blacklist")
    (hwl : movie.id ∉ overrideIds overrides channel.name "whitelist")
    (hg : genre_match channel movie = true)
    (hk : keyword_match channel movie = false)
    (ht : tmdbEval channel lookup movie = (false, false)) :
    (channel.filter_mode = some "AND" →
      movieEligible channel (overrideIds overrides channel.name "blacklist")
          (overrideIds overrides channel.name "whitelist") lookup movie
        = false ∧
      movie ∉ get_movies_for_holiday_channel lookup movies overrides channel) ∧
    (channel.filter_mode = some "OR" →
      movieEligible channel (overrideIds overrides channel.name "blacklist")
          (overrideIds overrides channel.name "whitelist") lookup movie
        = ratingOk channel movie ∧
      (movie ∈ movies → ratingOk channel movie = true →
        movie ∈ get_movies_for_holiday_channel lookup movies overrides channel)) ∧
    (∀ (lookup' : Option TMDBLookup) (movie' : Movie),
      movie'.id ∉ overrideIds overrides channel.name "blacklist" →
      movie'.id ∉ overrideIds overrides channel.name "whitelist" →
      (tmdbEval channel lookup' movie').1 = true →
      (tmdbEval channel lookup' movie').2 = false →
      movieEligible channel (overrideIds overrides channel.name "blacklist")
          (overrideIds overrides channel.name "whitelist") lookup' movie'
        = ratingOk channel movie') := by
  refine ⟨?_, ?_, ?_⟩
  · intro hmode
    have hfalse : movieEligible channel
        (overrideIds overrides channel.name "blacklist")
        (overrideIds overrides channel.name "whitelist") lookup movie
        = false := by
      rw [movieEligible, if_neg (by simp [hbl]), if_neg (by simp [hwl])]
      simp only [ht, if_neg Bool.false_ne_true]
      rw [if_pos ((effFilterMode_eq_AND channel.filter_mode).2 hmode)]
      simp [hg, hk]
    refine ⟨hfalse, fun hmem => ?_⟩
    have := (List.mem_filter.1 hmem).2
    rw [hfalse] at this
    exact Bool.false_ne_true this
  · intro hmode
    have heq : movieEligible channel
        (overrideIds overrides channel.name "blacklist")
        (overrideIds overrides channel.name "whitelist") lookup movie
        = ratingOk channel movie := by
      rw [movieEligible, if_neg (by simp [hbl]), if_neg (by simp [hwl])]
      simp only [ht, if_neg Bool.false_ne_true]
      have hcond : ¬ effFilterMode channel.filter_mode = "AND" := by
        rw [effFilterMode_eq_AND, hmode]
        simp
      rw [if_neg hcond]
      simp [hg]
    exact ⟨heq, fun hm hr => List.mem_filter.2 ⟨hm, by rw [heq, hr]⟩⟩
  · intro lookup' movie' hbl' hwl' ht1 ht2
    rw [movieEligible, if_neg (by simp [hbl']), if_neg (by simp [hwl'])]
    simp only [ht2, if_neg Bool.false_ne_true]
    simp [ht1]

/-- Witness for C5 at the conjunctive sample channel: genre-only match is
excluded. -/
theorem claim_C5_witness :
    movieEligible chAND (overrideIds [] chAND.name "blacklist")
        (overrideIds [] chAND.name "whitelist") none mvGenreOnly = false ∧
    mvGenreOnly ∉ get_movies_for_holiday_channel none [mvGenreOnly] [] chAND :=
  (claim_C5_mode_semantics none [mvGenreOnly] [] chAND mvGenreOnly
    (by decide) (by decide) (by decide) (by decide) rfl).1 rfl

/-- C10: the filter engine substitutes `'OR'` for a falsy stored mode and
branches only on equality with the exact string `'AND'`: the
genre∧keyword conjunction applies exactly when `filter_mode` is `'AND'`,
so an unset/NULL mode and the spec's spellings `'ALL'` and `'ANY'` all get
the disjunctive behaviour. -/
theorem claim_C10_and_string_only (channel : HolidayChannel)
    (blacklist whitelist : List Nat) (lookup : Option TMDBLookup)
    (movie : Movie)
    (hbl : movie.id ∉ blacklist) (hwl : movie.id ∉ whitelist)
    (hx : (tmdbEval channel lookup movie).2 = false) :
    (∀ fm, effFilterMode fm = "AND" ↔ fm = some "AND") ∧
    effFilterMode none = "OR" ∧ effFilterMode (some "") = "OR" ∧
    movieEligible channel blacklist whitelist lookup movie =
      (((if channel.filter_mode = some "AND" then
            genre_match channel movie && keyword_match channel movie
          else genre_match channel movie || keyword_match channel movie) ||
          (tmdbEval channel lookup movie).1) &&
        ratingOk channel movie) := by
  refine ⟨effFilterMode_eq_AND, rfl, rfl, ?_⟩
  rw [movieEligible, if_neg (by simp [hbl]), if_neg (by simp [hwl])]
  simp only [hx, if_neg Bool.false_ne_true]
  by_cases hmode : channel.filter_mode = some "AND"
  · rw [if_pos ((effFilterMode_eq_AND channel.filter_mode).2 hmode),
      if_pos hmode]
    cases hb : (genre_match channel movie && keyword_match channel movie ||
        (tmdbEval channel lookup movie).1) <;> simp [hb]
  · rw [if_neg (fun h => hmode ((effFilterMode_eq_AND channel.filter_mode).1 h)),
      if_neg hmode]
    cases hb : (genre_match channel movie || keyword_match channel movie ||
        (tmdbEval channel lookup movie).1) <;> simp [hb]

/-- Witness for C10 at mode `'ALL'`: despite the spec's conjunctive name,
the stored string `'ALL'` gets disjunctive behaviour, so a genre-only
match is eligible. -/
theorem claim_C10_witness :
    movieEligible { chAND with filter_mode := some "ALL" } [] [] none
        mvGenreOnly =
      (((if ({ chAND with filter_mode := some "ALL" } : HolidayChannel).filter_mode
            = some "AND" then
          genre_match { chAND with filter_mode := some "ALL" } mvGenreOnly &&
            keyword_match { chAND with filter_mode := some "ALL" } mvGenreOnly
        else
          genre_match { chAND with filter_mode := some "ALL" } mvGenreOnly ||
            keyword_match { chAND with filter_mode := some "ALL" } mvGenreOnly) ||
          (tmdbEval { chAND with filter_mode := some "ALL" } none mvGenreOnly).1) &&
        ratingOk { chAND with filter_mode := some "ALL" } mvGenreOnly) :=
  (claim_C10_and_string_only { chAND with filter_mode := some "ALL" } [] []
    none mvGenreOnly (by simp) (by simp) rfl).2.2.2

/-! ## String ordering

Python compares and sorts `str` values lexicographically by code point;
`charListLt`/`strLt`/`strLe` embed that order executably and are proved
to agree with Mathlib's order on `String`. -/

/-- Lexicographic strict order on character lists (Python string `<`). -/
def charListLt : List Char → List Char → Bool
  | [], [] => false
  | [], _ :: _ => true
  | _ :: _, [] => false
  | a :: as, b :: bs =>
    if a < b then true else if b < a then false else charListLt as bs

lemma charListLt_iff : ∀ as bs : List Char, charListLt as bs = true ↔ as < bs := by
  intro as
  induction as with
  | nil =>
    intro bs
    cases bs with
    | nil =>
      constructor
      · intro h
        simp [charListLt] at h
      · intro h
        exact absurd h (lt_irrefl _)
    | cons b bs =>
      constructor
      · intro _
        exact List.Lex.nil
      · intro _
        rfl
  | cons a as ih =>
    intro bs
    cases bs with
    | nil =>
      constructor
      · intro h
        simp [charListLt] at h
      · intro h
        cases h
    | cons b bs =>
      by_cases hab : a < b
      · constructor
        · intro _
          exact List.Lex.rel hab
        · intro _
          simp [charListLt, hab]
      · by_cases hba : b < a
        · constructor
          · intro h
            simp [charListLt, hab, hba] at h
          · intro h
            cases h with
            | cons h' => exact absurd hba (lt_irrefl _)
            | rel h' => exact absurd h' hab
        · have hEq : a = b := le_antisymm (not_lt.1 hba) (not_lt.1 hab)
          subst hEq
          constructor
          · intro h
            simp [charListLt, hab, hba] at h
            exact List.Lex.cons ((ih bs).1 h)
          · intro h
            simp [charListLt, hab, hba]
            apply (ih bs).2
            cases h with
            | cons h' => exact h'
            | rel h' => exact absurd h' hab

/-- Python string `<`. -/
def strLt (a b : String) : Bool := charListLt a.toList b.toList

/-- Python string `<=`. -/
def strLe (a b : String) : Bool := !(strLt b a)

lemma strLt_iff (a b : String) : strLt a b = true ↔ a < b := by
  rw [strLt, charListLt_iff, String.lt_iff_toList_lt]

lemma strLe_iff (a b : String) : strLe a b = true ↔ a ≤ b := by
  rw [strLe, Bool.not_eq_true']
  rw [← Bool.not_eq_true, ← not_lt]
  constructor
  · intro h
    exact fun hc => h ((strLt_iff b a).2 hc)
  · intro h
    exact fun hc => h ((strLt_iff b a).1 hc)

/-- Python's `sorted` on strings. -/
def sortedStrings (l : List String) : List String :=
  List.insertionSort (fun a b => strLe a b = true) l

/-! ## Channel directory -/

/-- The season test of `get_active_holiday_channels`
(src/scheduler.py:163-169). -/
def isActiveMonth (month : Nat) (c : HolidayChannel) : Bool :=
  if c.start_month ≤ c.end_month then
    decide (c.start_month ≤ month) && decide (month ≤ c.end_month)
  else
    decide (month ≥ c.start_month) || decide (month ≤ c.end_month)

/-- `ScheduleGenerator.get_active_holiday_channels`
(src/scheduler.py:158-171). -/
def get_active_holiday_channels (month : Nat)
    (channels : List HolidayChannel) : List HolidayChannel :=
  channels.filter (isActiveMonth month)

/-- `ScheduleGenerator.get_all_channels` (src/scheduler.py:470-478):
distinct catalog genres, then the names of active holiday channels
appended, then `sorted(...)`. -/
def get_all_channels (month : Nat) (movies : List Movie)
    (channels : List HolidayChannel) : List String :=
  sortedStrings ((movies.map (fun m => m.genre)).dedup ++
    (get_active_holiday_channels month channels).map (fun c => c.name))

/-- The `order_by(Schedule.start_time)` of the current-program query. -/
def sortSlotsByStart (l : List Slot) : List Slot :=
  List.insertionSort (fun a b => strLe a.start_time b.start_time = true) l

/-- `ScheduleGenerator.get_current_playing` (src/scheduler.py:446-460):
scan the day's slots in `start_time` order for one whose
`[start_time, end_time)` string interval contains the current `"HH:MM"`;
fall back to the first slot, else `None`. -/
def get_current_playing (db : List Slot) (channel : String) (day : Nat)
    (nowH nowM : Nat) : Option Slot :=
  let cur := pad2 nowH ++ ":" ++ pad2 nowM
  let schedules := sortSlotsByStart (slotsFor db channel day)
  match schedules.find?
      (fun s => strLe s.start_time cur && strLt cur s.end_time) with
  | some s => some s
  | none => schedules.head?

/-- C7: a themed channel is active exactly when the current month falls in
the inclusive `[start_month, end_month]` window, interpreted with a year
wrap when `start_month > end_month`; in particular an 11..1 channel is
active in November, December and January and inactive in February–October. -/
theorem claim_C7_season_window (month : Nat) (channels : List HolidayChannel)
    (c : HolidayChannel) :
    (c ∈ get_active_holiday_channels month channels ↔
      c ∈ channels ∧
        ((c.start_month ≤ c.end_month ∧
            c.start_month ≤ month ∧ month ≤ c.end_month) ∨
         (c.end_month < c.start_month ∧
            (month ≥ c.start_month ∨ month ≤ c.end_month)))) ∧
    (c.start_month = 11 → c.end_month = 1 →
      (isActiveMonth 11 c = true ∧ isActiveMonth 12 c = true ∧
        isActiveMonth 1 c = true) ∧
      ∀ m, 2 ≤ m → m ≤ 10 → isActiveMonth m c = false) := by
  constructor
  · rw [get_active_holiday_channels, List.mem_filter]
    constructor
    · rintro ⟨hm, hact⟩
      refine ⟨hm, ?_⟩
      rw [isActiveMonth] at hact
      by_cases h : c.start_month ≤ c.end_month
      · rw [if_pos h] at hact
        simp at hact
        exact Or.inl ⟨h, hact⟩
      · rw [if_neg h] at hact
        simp at hact
        refine Or.inr ⟨by omega, ?_⟩
        omega
    · rintro ⟨hm, hcond⟩
      refine ⟨hm, ?_⟩
      rw [isActiveMonth]
      rcases hcond with ⟨h1, h2, h3⟩ | ⟨h1, h2⟩
      · rw [if_pos h1]
        simp [h2, h3]
      · rw [if_neg (by omega)]
        simp
        omega
  · intro h11 h1
    constructor
    · refine ⟨?_, ?_, ?_⟩ <;> simp [isActiveMonth, h11, h1]
    · intro m h2 h10
      simp only [isActiveMonth, h11, h1]
      rw [if_neg (by omega)]
      simp
      omega

/-- Witness for C7 with a concrete November–January channel. -/
theorem claim_C7_witness :
    (chAND ∈ get_active_holiday_channels 12 [chAND] ↔
      chAND ∈ [chAND] ∧
        ((chAND.start_month ≤ chAND.end_month ∧
            chAND.start_month ≤ 12 ∧ 12 ≤ chAND.end_month) ∨
         (chAND.end_month < chAND.start_month ∧
            (12 ≥ chAND.start_month ∨ 12 ≤ chAND.end_month)))) ∧
    (isActiveMonth 11 chAND = true ∧ isActiveMonth 12 chAND = true ∧
      isActiveMonth 1 chAND = true) ∧
    ∀ m, 2 ≤ m → m ≤ 10 → isActiveMonth m chAND = false :=
  ⟨(claim_C7_season_window 12 [chAND] chAND).1,
   (claim_C7_season_window 12 [chAND] chAND).2 rfl rfl⟩

/-- A catalog entry whose genre collides with an active holiday channel
name. -/
def mvChristmasGenre : Movie :=
  { id := 2, title := "B", genre := "Christmas", duration := 80,
    year := none, rating := none, summary := none }

/-- C8 as stated is false: `get_all_channels` appends active holiday names
to the distinct genres without removing duplicates, so a catalog genre
equal to an active themed channel's name appears twice — the result is a
sorted concatenation, not a union. -/
theorem claim_C8_counterexample :
    ¬ (get_all_channels 12 [mvChristmasGenre] [chAND]).Nodup := by
  intro h
  have harg : (([mvChristmasGenre].map (fun m => m.genre)).dedup ++
      (get_active_holiday_channels 12 [chAND]).map (fun c => c.name)) =
      ["Christmas", "Christmas"] := by decide
  have hp := List.perm_insertionSort (fun a b : String => strLe a b = true)
    (([mvChristmasGenre].map (fun m => m.genre)).dedup ++
      (get_active_holiday_channels 12 [chAND]).map (fun c => c.name))
  rw [harg] at hp
  have hnd : (["Christmas", "Christmas"] : List String).Nodup :=
    (hp.nodup_iff).1 h
  simp at hnd

/-- C8 amended: `get_all_channels` returns the lexicographically sorted
concatenation of the catalog's distinct genres and the active themed
channel names — membership is exactly the union membership of the claim,
but duplicates are possible; the result is duplicate-free only when no
active themed channel name collides with a genre (and the active names
are themselves distinct). -/
theorem claim_C8_channel_names (month : Nat) (movies : List Movie)
    (channels : List HolidayChannel) :
    List.Sorted (fun a b : String => a ≤ b)
        (get_all_channels month movies channels) ∧
    (∀ s, s ∈ get_all_channels month movies channels ↔
      ((∃ m ∈ movies, m.genre = s) ∨
       (∃ c ∈ channels, isActiveMonth month c = true ∧ c.name = s))) ∧
    ((∀ c ∈ channels, isActiveMonth month c = true →
        ∀ m ∈ movies, m.genre ≠ c.name) →
      ((get_active_holiday_channels month channels).map
          (fun c => c.name)).Nodup →
      (get_all_channels month movies channels).Nodup) := by
  haveI htot : IsTotal String (fun a b => strLe a b = true) :=
    ⟨fun a b => by
      rw [strLe_iff, strLe_iff]
      exact le_total a b⟩
  haveI htrans : IsTrans String (fun a b => strLe a b = true) :=
    ⟨fun a b c hab hbc => by
      rw [strLe_iff] at hab hbc ⊢
      exact le_trans hab hbc⟩
  have hperm := List.perm_insertionSort (fun a b : String => strLe a b = true)
    ((movies.map (fun m => m.genre)).dedup ++
      (get_active_holiday_channels month channels).map (fun c => c.name))
  refine ⟨?_, ?_, ?_⟩
  · have hs := List.sorted_insertionSort (fun a b : String => strLe a b = true)
      ((movies.map (fun m => m.genre)).dedup ++
        (get_active_holiday_channels month channels).map (fun c => c.name))
    exact hs.imp (fun h => (strLe_iff _ _).1 h)
  · intro s
    rw [get_all_channels, sortedStrings, hperm.mem_iff, List.mem_append]
    constructor
    · rintro (hg | hn)
      · rw [List.mem_dedup, List.mem_map] at hg
        obtain ⟨m, hm, hms⟩ := hg
        exact Or.inl ⟨m, hm, hms⟩
      · rw [List.mem_map] at hn
        obtain ⟨c, hc, hcs⟩ := hn
        rw [get_active_holiday_channels, List.mem_filter] at hc
        exact Or.inr ⟨c, hc.1, hc.2, hcs⟩
    · rintro (⟨m, hm, hms⟩ | ⟨c, hc, hact, hcs⟩)
      · exact Or.inl (List.mem_dedup.2 (List.mem_map.2 ⟨m, hm, hms⟩))
      · refine Or.inr (List.mem_map.2 ⟨c, ?_, hcs⟩)
        rw [get_active_holiday_channels, List.mem_filter]
        exact ⟨hc, hact⟩
  · intro hdisj hnames
    rw [get_all_channels, sortedStrings, hperm.nodup_iff]
    rw [List.nodup_append]
    refine ⟨List.nodup_dedup _, hnames, ?_⟩
    intro s hs hs'
    rw [List.mem_dedup, List.mem_map] at hs
    rw [List.mem_map] at hs'
    obtain ⟨m, hm, hms⟩ := hs
    obtain ⟨c, hc, hcs⟩ := hs'
    rw [get_active_holiday_channels, List.mem_filter] at hc
    exact hdisj c hc.1 hc.2 m hm (by rw [hms, hcs])

/-- Witness for the amended C8: distinct genre and active channel name
give a duplicate-free sorted listing. -/
theorem claim_C8_witness :
    (get_all_channels 12 [mvComedy] [chAND]).Nodup :=
  (claim_C8_channel_names 12 [mvComedy] [chAND]).2.2 (by decide) (by decide)

/-- C9: `get_current_playing` returns `none` exactly when the (channel,
day) pair has no slots; any returned slot is one of the pair's slots; when
some stored slot's `[start_time, end_time)` contains the current time it
returns such a containing slot; and when no slot contains the current
time it falls back to the first slot in start-time order. -/
theorem claim_C9_current_program (db : List Slot) (channel : String)
    (day : Nat) (nowH nowM : Nat) :
    (get_current_playing db channel day nowH nowM = none ↔
      slotsFor db channel day = []) ∧
    (∀ s, get_current_playing db channel day nowH nowM = some s →
      s ∈ slotsFor db channel day) ∧
    ((∃ s ∈ slotsFor db channel day,
        strLe s.start_time (pad2 nowH ++ ":" ++ pad2 nowM) = true ∧
        strLt (pad2 nowH ++ ":" ++ pad2 nowM) s.end_time = true) →
      ∃ s, get_current_playing db channel day nowH nowM = some s ∧
        strLe s.start_time (pad2 nowH ++ ":" ++ pad2 nowM) = true ∧
        strLt (pad2 nowH ++ ":" ++ pad2 nowM) s.end_time = true) ∧
    ((∀ s ∈ slotsFor db channel day,
        ¬(strLe s.start_time (pad2 nowH ++ ":" ++ pad2 nowM) = true ∧
          strLt (pad2 nowH ++ ":" ++ pad2 nowM) s.end_time = true)) →
      get_current_playing db channel day nowH nowM =
        (sortSlotsByStart (slotsFor db channel day)).head?) := by
  have hperm : (sortSlotsByStart (slotsFor db channel day)).Perm
      (slotsFor db channel day) :=
    List.perm_insertionSort
      (fun a b : Slot => strLe a.start_time b.start_time = true)
      (slotsFor db channel day)
  have hg : get_current_playing db channel day nowH nowM =
      match (sortSlotsByStart (slotsFor db channel day)).find?
          (fun s => strLe s.start_time (pad2 nowH ++ ":" ++ pad2 nowM) &&
            strLt (pad2 nowH ++ ":" ++ pad2 nowM) s.end_time) with
      | some s => some s
      | none => (sortSlotsByStart (slotsFor db channel day)).head? := rfl
  cases hf : (sortSlotsByStart (slotsFor db channel day)).find?
      (fun s => strLe s.start_time (pad2 nowH ++ ":" ++ pad2 nowM) &&
        strLt (pad2 nowH ++ ":" ++ pad2 nowM) s.end_time) with
  | some s =>
    rw [hf] at hg
    have hsS := List.mem_of_find?_eq_some hf
    have hsMem : s ∈ slotsFor db channel day := hperm.mem_iff.1 hsS
    have hps := List.find?_some hf
    rw [Bool.and_eq_true] at hps
    refine ⟨?_, ?_, ?_, ?_⟩
    · rw [hg]
      constructor
      · intro h
        exact absurd h (by simp)
      · intro h
        rw [h] at hsMem
        simp at hsMem
    · intro s' hs'
      rw [hg] at hs'
      have : s' = s := by
        injection hs' with h
        exact h.symm
      rw [this]
      exact hsMem
    · intro _
      exact ⟨s, hg, hps.1, hps.2⟩
    · intro hall
      exact absurd ⟨hps.1, hps.2⟩ (hall s hsMem)
  | none =>
    rw [hf] at hg
    have hnone := List.find?_eq_none.1 hf
    refine ⟨?_, ?_, ?_, ?_⟩
    · rw [hg]
      constructor
      · intro h
        have hSnil : sortSlotsByStart (slotsFor db channel day) = [] := by
          cases hS : sortSlotsByStart (slotsFor db channel day) with
          | nil => rfl
          | cons a t =>
            rw [hS] at h
            simp at h
        rw [hSnil] at hperm
        exact (hperm.symm.eq_nil)
      · intro h
        show (sortSlotsByStart (slotsFor db channel day)).head? = none
        rw [h]
        rfl
    · intro s' hs'
      rw [hg] at hs'
      have : s' ∈ sortSlotsByStart (slotsFor db channel day) := by
        cases hS : sortSlotsByStart (slotsFor db channel day) with
        | nil =>
          rw [hS] at hs'
          simp at hs'
        | cons a t =>
          rw [hS] at hs'
          simp at hs'
          simp [hs']
      exact hperm.mem_iff.1 this
    · rintro ⟨s, hsMem, hc1, hc2⟩
      have hsS : s ∈ sortSlotsByStart (slotsFor db channel day) :=
        hperm.mem_iff.2 hsMem
      have := hnone s hsS
      rw [Bool.and_eq_true] at this
      exact absurd ⟨hc1, hc2⟩ this
    · intro _
      exact hg

/-- Witness for C9: a single all-day slot contains noon. -/
theorem claim_C9_witness :
    ∃ s, get_current_playing [slotX] "X" 0 12 0 = some s ∧
      strLe s.start_time (pad2 12 ++ ":" ++ pad2 0) = true ∧
      strLt (pad2 12 ++ ":" ++ pad2 0) s.end_time = true :=
  (claim_C9_current_program [slotX] "X" 0 12 0).2.2.1
    ⟨slotX, by decide, by decide, by decide⟩

/-! ## Schedule orchestrator (`ScheduleGenerator.generate_all_schedules`) -/

/-- The store the orchestrator reads and writes: the settings row, the
slot table, and the read-only movie / holiday-channel / override tables. -/
structure SysState where
  settings : Option Settings
  slots : List Slot
  movies : List Movie
  holiday_channels : List HolidayChannel
  overrides : List MovieOverride
  deriving Repr, DecidableEq

/-- The regeneration loop of src/scheduler.py:384-428 acting on the slot
table after the initial bulk delete: for each day 0..6, pack each genre
channel from its genre's entries, then each currently-active holiday
channel from its filtered entries (skipping holiday channels whose
eligible set is empty, per the `if holiday_movies:` guard). -/
def regenerateSlots (shuffle : List Movie → List Movie)
    (lookup : Option TMDBLookup) (month : Nat) (movies : List Movie)
    (channels : List HolidayChannel) (overrides : List MovieOverride) :
    List Slot :=
  (List.range 7).foldl (fun slots day =>
    let slots1 := ((movies.map (fun m => m.genre)).dedup).foldl
      (fun sl g => generate_channel_schedule shuffle sl g
        (movies.filter (fun m => m.genre == g)) day) slots
    (get_active_holiday_channels month channels).foldl
      (fun sl c =>
        let hm := get_movies_for_holiday_channel lookup movies overrides c
        if hm.isEmpty then sl
        else generate_channel_schedule shuffle sl c.name hm day) slots1) []

/-- `ScheduleGenerator.generate_all_schedules` (src/scheduler.py:358-444):
create a default weekly settings row on first run (and then proceed
unconditionally); otherwise skip when not forced, a last run is recorded,
and the elapsed days are under the cadence threshold; when proceeding,
delete all slots, rebuild every channel/day, and stamp the last-run date
with today. -/
def generate_all_schedules (shuffle : List Movie → List Movie)
    (lookup : Option TMDBLookup) (today : Int) (month : Nat) (force : Bool)
    (st : SysState) : SysState :=
  match st.settings with
  | none =>
    { st with
      settings := some { shuffle_frequency := some "weekly",
                         last_shuffle_date := some today },
      slots := regenerateSlots shuffle lookup month st.movies
        st.holiday_channels st.overrides }
  | some s =>
    let skip : Bool :=
      !force &&
        (match s.last_shuffle_date with
         | none => false
         | some d =>
           (s.shuffle_frequency == some "daily" && decide (today - d < 1)) ||
           (s.shuffle_frequency == some "weekly" && decide (today - d < 7)) ||
           (s.shuffle_frequency == some "monthly" && decide (today - d < 30)))
    if skip then st
    else
      { st with
        settings := some { s with last_shuffle_date := some today },
        slots := regenerateSlots shuffle lookup month st.movies
          st.holiday_channels st.overrides }

lemma gen_all_skip (shuffle : List Movie → List Movie)
    (lookup : Option TMDBLookup) (today : Int) (month : Nat) (st : SysState)
    (s : Settings) (d : Int) (hs : st.settings = some s)
    (hd : s.last_shuffle_date = some d)
    (hcond : (s.shuffle_frequency = some "daily" ∧ today - d < 1) ∨
      (s.shuffle_frequency = some "weekly" ∧ today - d < 7) ∨
      (s.shuffle_frequency = some "monthly" ∧ today - d < 30)) :
    generate_all_schedules shuffle lookup today month false st = st := by
  have hskip : (!false &&
      (match s.last_shuffle_date with
       | none => false
       | some d =>
         (s.shuffle_frequency == some "daily" && decide (today - d < 1)) ||
         (s.shuffle_frequency == some "weekly" && decide (today - d < 7)) ||
         (s.shuffle_frequency == some "monthly" && decide (today - d < 30)))) =
      true := by
    rw [hd]
    rcases hcond with ⟨hf, hlt⟩ | ⟨hf, hlt⟩ | ⟨hf, hlt⟩ <;> simp [hf, hlt]
  simp only [generate_all_schedules, hs]
  rw [if_pos hskip]

lemma gen_all_proceed_settings (shuffle : List Movie → List Movie)
    (lookup : Option TMDBLookup) (today : Int) (month : Nat) (st : SysState) :
    generate_all_schedules shuffle lookup today month false st = st ∨
    ∃ fr, (generate_all_schedules shuffle lookup today month false st).settings
        = some { shuffle_frequency := fr, last_shuffle_date := some today } ∧
      (match st.settings with
       | none => fr = some "weekly"
       | some s => fr = s.shuffle_frequency) := by
  cases hset : st.settings with
  | none =>
    refine Or.inr ⟨some "weekly", ?_, rfl⟩
    simp only [generate_all_schedules, hset]
  | some s =>
    by_cases hskip : (!false &&
        (match s.last_shuffle_date with
         | none => false
         | some d =>
           (s.shuffle_frequency == some "daily" && decide (today - d < 1)) ||
           (s.shuffle_frequency == some "weekly" && decide (today - d < 7)) ||
           (s.shuffle_frequency == some "monthly" && decide (today - d < 30)))) =
        true
    · refine Or.inl ?_
      simp only [generate_all_schedules, hset]
      rw [if_pos hskip]
    · refine Or.inr ⟨s.shuffle_frequency, ?_, rfl⟩
      simp only [generate_all_schedules, hset]
      rw [if_neg hskip]

/-- C6: with `force=False`, a recorded last run, and elapsed days strictly
below the cadence threshold (daily 1, weekly 7, monthly 30), the
orchestrator returns with the whole store — slots and regeneration state —
unchanged; consequently a second immediate `force=False` call under weekly
or monthly cadence (or from a fresh install, which creates a weekly
cadence) changes nothing after the first. -/
theorem claim_C6_staleness_noop (shuffle : List Movie → List Movie)
    (lookup : Option TMDBLookup) (today : Int) (month : Nat) (st : SysState) :
    (∀ s d, st.settings = some s → s.last_shuffle_date = some d →
      ((s.shuffle_frequency = some "daily" ∧ today - d < 1) ∨
       (s.shuffle_frequency = some "weekly" ∧ today - d < 7) ∨
       (s.shuffle_frequency = some "monthly" ∧ today - d < 30)) →
      generate_all_schedules shuffle lookup today month false st = st) ∧
    ((st.settings = none ∨
        ∃ s, st.settings = some s ∧
          (s.shuffle_frequency = some "weekly" ∨
            s.shuffle_frequency = some "monthly")) →
      generate_all_schedules shuffle lookup today month false
          (generate_all_schedules shuffle lookup today month false st) =
        generate_all_schedules shuffle lookup today month false st) := by
  constructor
  · intro s d hs hd hcond
    exact gen_all_skip shuffle lookup today month st s d hs hd hcond
  · intro hcases
    rcases gen_all_proceed_settings shuffle lookup today month st with h1 | ⟨fr, hset, hfr⟩
    · rw [h1]
      exact h1
    · apply gen_all_skip shuffle lookup today month _ _ today hset rfl
      rcases hcases with hnone | ⟨s, hs, hfreq⟩
      · simp only [hnone] at hfr
        rw [hfr]
        exact Or.inr (Or.inl ⟨rfl, by omega⟩)
      · simp only [hs] at hfr
        rcases hfreq with hf | hf
        · exact Or.inr (Or.inl ⟨by rw [hfr, hf], by omega⟩)
        · exact Or.inr (Or.inr ⟨by rw [hfr, hf], by omega⟩)

/-- A concrete store that ran a weekly regeneration today (day 0). -/
def stW : SysState :=
  { settings := some { shuffle_frequency := some "weekly",
                       last_shuffle_date := some 0 },
    slots := [slotX], movies := [], holiday_channels := [], overrides := [] }

/-- Witness for C6: an up-to-date weekly store is untouched, and the call
is idempotent. -/
theorem claim_C6_witness :
    generate_all_schedules id none 0 1 false stW = stW ∧
    generate_all_schedules id none 0 1 false
        (generate_all_schedules id none 0 1 false stW) =
      generate_all_schedules id none 0 1 false stW :=
  ⟨(claim_C6_staleness_noop id none 0 1 stW).1
      { shuffle_frequency := some "weekly", last_shuffle_date := some 0 } 0
      rfl rfl (Or.inr (Or.inl ⟨rfl, by decide⟩)),
   (claim_C6_staleness_noop id none 0 1 stW).2
      (Or.inr ⟨{ shuffle_frequency := some "weekly",
                 last_shuffle_date := some 0 }, rfl, Or.inl rfl⟩)⟩

end Popcorn
